import Mathlib

/-!
Verification development for the streamside recording pipeline.

The development shallowly embeds the client-side capture/upload controller
(`apps/web/src/services/MediaRecorderService.ts`), the recording-state
handler of the studio call page
(`apps/web/src/app/studio/[studioId]/call/page.tsx`), the ingestion
endpoint (`apps/web/src/app/api/upload-chunk/route.ts`) and the object-store
helper (`lib/minio.ts`, `uploadChunk`).  Stateful TypeScript becomes explicit
state passing; JavaScript string/number builtins used by the code
(`Number.prototype.toString`, `String.prototype.padStart`, `parseInt`) are
modelled below.  External collaborators (MinIO, Prisma, the auth layer) are
modelled by the visible effect the code requests of them: an object store as
an association list keyed by object name, the `Recording` table as a list of
rows with the `(studioId, participantId)` natural key, authentication as a
boolean on the request.
-/

namespace Streamside

/-- Character for a decimal digit value, as produced by JavaScript number
formatting: digit `d` maps to code point `48 + d`. -/
def digitChar (d : Nat) : Char := Char.ofNat (48 + d)

/-- Fuel-indexed decimal printer; with fuel at least the magnitude of `n` it
computes the usual most-significant-first digit list.  The fuel only makes
the recursion structural so terms reduce definitionally. -/
def natToCharsFuel : Nat → Nat → List Char
  | 0, _ => []
  | fuel + 1, n =>
    if n < 10 then [digitChar n]
    else natToCharsFuel fuel (n / 10) ++ [digitChar (n % 10)]

/-- Decimal digits of a natural number, most significant first.  Models
JavaScript `Number.prototype.toString()` (default radix 10) for a
non-negative integer. -/
def natToChars (n : Nat) : List Char := natToCharsFuel (n + 1) n

theorem natToCharsFuel_irrel (f₁ : Nat) :
    ∀ f₂ n, n < f₁ → n < f₂ → natToCharsFuel f₁ n = natToCharsFuel f₂ n := by
  induction f₁ with
  | zero => intro f₂ n h₁ _; omega
  | succ f₁ ih =>
    intro f₂ n h₁ h₂
    cases f₂ with
    | zero => omega
    | succ f₂ =>
      simp only [natToCharsFuel]
      by_cases h : n < 10
      · simp [h]
      · simp only [h, if_false]
        have hdiv : n / 10 < n := Nat.div_lt_self (by omega) (by omega)
        rw [ih f₂ (n / 10) (by omega) (by omega)]

/-- Defining equation of `natToChars`, in the shape of the obvious
division/remainder recursion. -/
theorem natToChars_eq (n : Nat) :
    natToChars n =
      if n < 10 then [digitChar n]
      else natToChars (n / 10) ++ [digitChar (n % 10)] := by
  unfold natToChars
  conv_lhs => rw [natToCharsFuel]
  by_cases h : n < 10
  · simp [h]
  · simp only [h, if_false]
    have hdiv : n / 10 < n := Nat.div_lt_self (by omega) (by omega)
    rw [natToCharsFuel_irrel n (n / 10 + 1) (n / 10) (by omega) (by omega)]

/-- Decimal digits of a JavaScript integer (possibly negative), most
significant first; models `Number.prototype.toString()` for integral
values. -/
def intToChars (i : Int) : List Char :=
  if i < 0 then '-' :: natToChars i.natAbs else natToChars i.natAbs

/-- Models `String.prototype.padStart(width, '0')` on a character list:
prepends zeros up to `width`; a string already at least `width` long is
returned unchanged. -/
def padStartZero (l : List Char) (width : Nat) : List Char :=
  List.replicate (width - l.length) '0' ++ l

/-- Numeric value of a list of decimal digit characters, most significant
first. -/
def digitsToNat (ds : List Char) : Nat :=
  ds.foldl (fun acc c => acc * 10 + (c.toNat - 48)) 0

/-- Longest leading run of decimal digits, or `none` when there is none;
the digit-collection phase of `parseInt`. -/
def parseDigits (cs : List Char) : Option Nat :=
  match cs.takeWhile Char.isDigit with
  | [] => none
  | ds => some (digitsToNat ds)

/-- Models JavaScript `parseInt(s)` with an unspecified radix argument on a
decimal-looking input: skip leading whitespace, read an optional sign, then
the longest run of decimal digits; `none` stands for `NaN` (no digits).
The hexadecimal `0x` prefix detection of `parseInt` is not modelled; every
input considered in this development is decimal. -/
def parseIntJS (s : String) : Option Int :=
  match s.data.dropWhile Char.isWhitespace with
  | '-' :: rest => (parseDigits rest).map (fun n => -(n : Int))
  | '+' :: rest => (parseDigits rest).map (fun n => (n : Int))
  | rest => (parseDigits rest).map (fun n => (n : Int))

/-- JavaScript truthiness of `x || dflt` for a nullable string: `null` and
the empty string fall back to the default. -/
def jsStrOr (s : Option String) (dflt : String) : String :=
  match s with
  | none => dflt
  | some v => if v = "" then dflt else v

/-! ### MediaRecorderService (apps/web/src/services/MediaRecorderService.ts)

The class fields `chunkIndex`, `isRecording`, `mediaRecorder` (null or not)
and `localStream` (null or not) become a state record; the chosen
`MediaRecorderOptions.mimeType` is kept in the state so the codec-selection
logic of `startRecording` is observable.  The browser environment's
`MediaRecorder.isTypeSupported` is a boolean-valued parameter.  Device
acquisition and recorder construction are taken on their success path, the
only path the claims about this service concern. -/

/-- Preferred container/codec of `startRecording`. -/
def vp9Mime : String := "video/webm;codecs=vp9,opus"

/-- Fallback container/codec of `startRecording`. -/
def vp8Mime : String := "video/webm;codecs=vp8,opus"

/-- Codec-selection logic of `startRecording`: prefer VP9, fall back to VP8
when `MediaRecorder.isTypeSupported` rejects the preferred type. -/
def selectMimeType (isTypeSupported : String → Bool) : String :=
  if isTypeSupported vp9Mime then vp9Mime else vp8Mime

/-- Mutable fields of a `MediaRecorderService` instance. -/
structure RecorderState where
  chunkIndex : Nat
  isRecording : Bool
  hasStream : Bool
  hasRecorder : Bool
  mime : Option String
  deriving Repr, DecidableEq

/-- Field values a fresh `MediaRecorderService` instance starts with. -/
def initialRecorder : RecorderState :=
  { chunkIndex := 0, isRecording := false, hasStream := false,
    hasRecorder := false, mime := none }

/-- Observable effects of one service call: the `onChunkUploaded` callback
with its index argument, a `console.warn`, or the `onError` callback. -/
inductive RecorderOutput where
  | uploaded (i : Nat)
  | warned
  | errored
  deriving Repr, DecidableEq

/-- Embeds `startRecording`: a warning no-op while already recording;
otherwise the stream is (lazily) acquired, the mime type selected with the
VP9→VP8 fallback, a recorder created and started. -/
def startRecording (isTypeSupported : String → Bool) (s : RecorderState) :
    RecorderState × List RecorderOutput :=
  if s.isRecording then (s, [.warned])
  else
    ({ s with hasStream := true, hasRecorder := true,
              mime := some (selectMimeType isTypeSupported),
              isRecording := true }, [])

/-- Embeds `stopRecording`: a warning no-op without an active recording;
otherwise the recorder is stopped, whose `onstop` handler clears
`isRecording`.  The final flush the stop triggers arrives as an ordinary
`dataAvailable` event. -/
def stopRecording (s : RecorderState) : RecorderState × List RecorderOutput :=
  if !s.isRecording || !s.hasRecorder then (s, [.warned])
  else ({ s with isRecording := false }, [])

/-- Embeds the `ondataavailable` handler installed by `startRecording`:
a non-empty blob is uploaded; on success the `onChunkUploaded` callback
fires with the current index and the index is incremented afterwards; when
`uploadChunk` throws (transport failure or non-ok response) only `onError`
fires and the index is left untouched. -/
def dataAvailable (s : RecorderState) (size : Nat) (uploadOk : Bool) :
    RecorderState × List RecorderOutput :=
  if size > 0 then
    if uploadOk then
      ({ s with chunkIndex := s.chunkIndex + 1 }, [.uploaded s.chunkIndex])
    else (s, [.errored])
  else (s, [])

/-- Embeds `cleanup`: stops everything and resets all fields. -/
def cleanupRecorder (_s : RecorderState) : RecorderState × List RecorderOutput :=
  (initialRecorder, [])

/-- Events a `MediaRecorderService` instance processes during one session
(`cleanup` runs only when the session's page unmounts, so it is not part of
the in-session alphabet). -/
inductive RecorderEvent where
  | start
  | stop
  | data (size : Nat) (uploadOk : Bool)
  deriving Repr, DecidableEq

/-- Dispatch one event to the service. -/
def recorderStep (isTypeSupported : String → Bool) (s : RecorderState) :
    RecorderEvent → RecorderState × List RecorderOutput
  | .start => startRecording isTypeSupported s
  | .stop => stopRecording s
  | .data size ok => dataAvailable s size ok

/-- Run a sequence of events, concatenating the emitted outputs. -/
def runRecorder (isTypeSupported : String → Bool) (s : RecorderState) :
    List RecorderEvent → RecorderState × List RecorderOutput
  | [] => (s, [])
  | e :: es =>
    let step := recorderStep isTypeSupported s e
    let rest := runRecorder isTypeSupported step.1 es
    (rest.1, step.2 ++ rest.2)

/-- Indices delivered to the `onChunkUploaded` callback, in order. -/
def uploadsOf (outs : List RecorderOutput) : List Nat :=
  outs.filterMap (fun o => match o with | .uploaded i => some i | _ => none)

/-- Count of events that produce a successful upload: non-empty data whose
upload succeeds. -/
def successCount (es : List RecorderEvent) : Nat :=
  es.countP (fun e => match e with | .data size ok => 0 < size && ok | _ => false)

/-! ### Studio call page recording-state handler
(apps/web/src/app/studio/[studioId]/call/page.tsx)

The `recording-state` socket handler writes the received boolean into the
zustand store (`setIsRecording`) and then starts or stops the local
`MediaRecorderService`. -/

/-- Client-side state the `recording-state` handler touches: the store's
`isRecording` flag and the local recorder service. -/
structure ClientState where
  storeIsRecording : Bool
  recorder : RecorderState
  deriving Repr, DecidableEq

/-- Embeds the `recording-state` socket handler of the studio call page:
`setIsRecording(newState)` then `startLocalRecording()` or
`stopLocalRecording()` according to the received value. -/
def handleRecordingState (isTypeSupported : String → Bool) (c : ClientState)
    (v : Bool) : ClientState × List RecorderOutput :=
  let c₁ : ClientState := { c with storeIsRecording := v }
  if v then
    let step := startRecording isTypeSupported c₁.recorder
    ({ c₁ with recorder := step.1 }, step.2)
  else
    let step := stopRecording c₁.recorder
    ({ c₁ with recorder := step.1 }, step.2)

/-! ### Object store helper (lib/minio.ts, `uploadChunk`)

Only the deterministic key construction and the put effect are relevant;
the MinIO client is modelled as an association list from object name to the
stored bytes, with put overwriting an existing name. -/

/-- Embeds the object-name template of `uploadChunk`:
the studio id, participant id and `chunk-` label, the chunk index printed
and zero-padded to width 5, and the `.webm` extension. -/
def chunkObjectName (studioId participantId : String) (chunkIndex : Int) : String :=
  studioId ++ "/" ++ participantId ++ "/chunk-" ++
    (padStartZero (intToChars chunkIndex) 5).asString ++ ".webm"

/-- Object store contents: object name ↦ stored byte string. -/
abbrev ObjectStore := List (String × List Nat)

/-- Embeds `minioClient.putObject`: stores the bytes under the name,
overwriting any object already there. -/
def putObject (store : ObjectStore) (name : String) (bytes : List Nat) : ObjectStore :=
  (name, bytes) :: List.filter (fun p => p.1 ≠ name) store

/-! ### Ingestion endpoint (apps/web/src/app/api/upload-chunk/route.ts)

The Prisma `Recording` table becomes a list of rows; `prisma.recording.upsert`
on the `(studioId, participantId)` unique key becomes find-then-update /
append.  `BigInt` sizes are arbitrary-precision non-negative integers, hence
`Nat`.  Timestamps and the generated row id carry no information the claims
touch and are not modelled; the MinIO and Prisma calls are taken on their
success path (the route's catch-all 500 models their failure, which no claim
concerns). -/

/-- Recording status enum of the Prisma schema. -/
inductive RecStatus where
  | uploading
  | processing
  | completed
  | failed
  deriving Repr, DecidableEq

/-- A `Recording` row (the fields the route reads or writes). -/
structure Recording where
  studioId : String
  participantId : String
  participantName : String
  fileUrl : String
  size : Nat
  status : RecStatus
  deriving Repr, DecidableEq

/-- The `(studioId, participantId)` unique-key predicate on rows. -/
def recKey (sid pid : String) (r : Recording) : Bool :=
  r.studioId == sid && r.participantId == pid

/-- Embeds `prisma.recording.upsert` as the route invokes it: if a row with
the natural key exists its size is incremented by the payload length (and
its update timestamp, unmodelled, refreshed); otherwise a row is created
with status `uploading`, the object name as `fileUrl` and the payload
length as size.  Returns the new table and the row the call yields. -/
def upsertRecording (rows : List Recording) (sid pid name fileUrl : String)
    (len : Nat) : List Recording × Recording :=
  match rows.find? (recKey sid pid) with
  | some r =>
    let r' := { r with size := r.size + len }
    (rows.map (fun x => if recKey sid pid x then r' else x), r')
  | none =>
    let r : Recording :=
      { studioId := sid, participantId := pid, participantName := name,
        fileUrl := fileUrl, size := len, status := .uploading }
    (rows ++ [r], r)

/-- Server-side state the route reads and writes: the studio table (only
existence of an id matters to the route), the object store and the
`Recording` table. -/
structure ServerState where
  studios : List String
  objects : ObjectStore
  recordings : List Recording
  deriving DecidableEq

/-- One multipart request to `POST /api/upload-chunk`, as the route reads it
from `formData`: each field is `null` or a value, the caller is or is not
authenticated, and `session.user.name` may be absent. -/
structure UploadRequest where
  authenticated : Bool
  userName : Option String
  chunk : Option (List Nat)
  studioId : Option String
  participantId : Option String
  chunkIndex : Option String
  deriving DecidableEq

/-- Responses of the route: 401, 400, 404, or the 200 payload (success flag,
echoed index, assigned object name, new cumulative size). -/
inductive UploadResponse where
  | unauthorized
  | missingFields
  | studioNotFound
  | ok (chunkIndex : Int) (objectName : String) (totalSize : Nat)
  deriving Repr, DecidableEq

/-- Value of `parseInt(formData.get('chunkIndex') as string)`: a missing
field is `null`, which `parseInt` turns into `NaN`. -/
def parseIndexField : Option String → Option Int
  | none => none
  | some s => parseIntJS s

/-- Embeds the `POST` handler of `app/api/upload-chunk/route.ts`:
reject 401 without a session; reject 400 when the chunk blob is missing,
the studio or participant id is missing or empty (JavaScript falsiness),
or `parseInt` of the index is `NaN`; reject 404 when the studio id is not
in the studio table; otherwise put the object under the deterministic name
and upsert the `Recording` row, answering with the index, the object name
and the row's new size. -/
def postUploadChunk (st : ServerState) (req : UploadRequest) :
    ServerState × UploadResponse :=
  if req.authenticated = false then (st, .unauthorized)
  else
    match req.chunk, req.studioId, req.participantId,
          parseIndexField req.chunkIndex with
    | some bytes, some sid, some pid, some idx =>
      if sid = "" ∨ pid = "" then (st, .missingFields)
      else if sid ∈ st.studios then
        let objectName := chunkObjectName sid pid idx
        let upsert :=
          upsertRecording st.recordings sid pid (jsStrOr req.userName "Anonymous")
            objectName bytes.length
        ({ studios := st.studios,
           objects := putObject st.objects objectName bytes,
           recordings := upsert.1 },
         .ok idx objectName upsert.2.size)
      else (st, .studioNotFound)
    | _, _, _, _ => (st, .missingFields)

/-! ### Properties of the capture controller -/

/-- Events that produce a successfully uploaded segment: non-empty data
whose upload succeeds. -/
def isSuccess : RecorderEvent → Bool
  | .data size ok => 0 < size && ok
  | _ => false

/-- Events whose upload attempt (if any) succeeds. -/
def eventUploadOk : RecorderEvent → Bool
  | .data _ ok => ok
  | _ => true

theorem uploadsOf_append (a b : List RecorderOutput) :
    uploadsOf (a ++ b) = uploadsOf a ++ uploadsOf b :=
  List.filterMap_append a b _

theorem recorderStep_chunkIndex (sup : String → Bool) (s : RecorderState)
    (e : RecorderEvent) :
    (recorderStep sup s e).1.chunkIndex =
      s.chunkIndex + (if isSuccess e then 1 else 0) := by
  cases e with
  | start =>
    simp only [recorderStep, startRecording, isSuccess]
    split <;> simp
  | stop =>
    simp only [recorderStep, stopRecording, isSuccess]
    split <;> simp
  | data size ok =>
    simp only [recorderStep, dataAvailable, isSuccess]
    by_cases hsz : 0 < size <;> cases ok <;> simp [hsz]

theorem recorderStep_uploads (sup : String → Bool) (s : RecorderState)
    (e : RecorderEvent) :
    uploadsOf (recorderStep sup s e).2 =
      if isSuccess e then [s.chunkIndex] else [] := by
  cases e with
  | start =>
    simp only [recorderStep, startRecording, isSuccess]
    split <;> simp [uploadsOf]
  | stop =>
    simp only [recorderStep, stopRecording, isSuccess]
    split <;> simp [uploadsOf]
  | data size ok =>
    simp only [recorderStep, dataAvailable, isSuccess]
    by_cases hsz : 0 < size <;> cases ok <;> simp [hsz, uploadsOf]

/-- Core invariant of the uploader's index counter: across any event
sequence the successfully uploaded indices are the consecutive block
starting at the initial counter value, and the counter advances by exactly
the number of successful uploads. -/
theorem runRecorder_range (sup : String → Bool) :
    ∀ (es : List RecorderEvent) (s : RecorderState),
      uploadsOf (runRecorder sup s es).2 =
        List.range' s.chunkIndex (successCount es) ∧
      (runRecorder sup s es).1.chunkIndex = s.chunkIndex + successCount es := by
  intro es
  induction es with
  | nil => intro s; simp [runRecorder, uploadsOf, successCount]
  | cons e es ih =>
    intro s
    have hcnt : successCount (e :: es) =
        (if isSuccess e then 1 else 0) + successCount es := by
      simp only [successCount, List.countP_cons, isSuccess]
      cases e <;> simp [Nat.add_comm]
    obtain ⟨ih1, ih2⟩ := ih (recorderStep sup s e).1
    have hstep := recorderStep_chunkIndex sup s e
    have hup := recorderStep_uploads sup s e
    simp only [runRecorder, uploadsOf_append, hup, ih1, ih2, hstep, hcnt]
    by_cases h : isSuccess e = true
    · simp only [h, if_true]
      refine ⟨?_, by omega⟩
      rw [Nat.add_comm 1 (successCount es), List.range'_succ]
      simp
    · simp only [h, if_false]
      refine ⟨by simp, by omega⟩

/-- C1: across any sequence of start/stop cycles of one service instance in
which every attempted chunk upload succeeds, the indices delivered to the
per-chunk success callback are exactly `0, 1, ..., N-1` in order — one
greater each time, no gaps, no duplicates, and no reset of the counter at a
stop/start boundary. -/
theorem C1_chunk_indices_contiguous (sup : String → Bool)
    (es : List RecorderEvent) (_hok : ∀ e ∈ es, eventUploadOk e = true) :
    uploadsOf (runRecorder sup initialRecorder es).2 =
      List.range (uploadsOf (runRecorder sup initialRecorder es).2).length := by
  obtain ⟨h1, _⟩ := runRecorder_range sup es initialRecorder
  rw [h1]
  simp only [initialRecorder]
  rw [List.length_range' _ _ _, List.range_eq_range']

theorem C1_chunk_indices_contiguous_witness :
    (∀ e ∈ [RecorderEvent.start, .data 5 true, .data 3 true, .stop,
            .data 2 true, .start, .data 4 true, .stop],
        eventUploadOk e = true) ∧
    uploadsOf (runRecorder (fun _ => true) initialRecorder
        [RecorderEvent.start, .data 5 true, .data 3 true, .stop,
         .data 2 true, .start, .data 4 true, .stop]).2 =
      List.range (uploadsOf (runRecorder (fun _ => true) initialRecorder
        [RecorderEvent.start, .data 5 true, .data 3 true, .stop,
         .data 2 true, .start, .data 4 true, .stop]).2).length :=
  ⟨by decide, C1_chunk_indices_contiguous (fun _ => true) _ (by decide)⟩

/-- C7: the `recording-state` handler is idempotent — applying it twice with
the same boolean leaves the client (store flag and recorder service fields)
exactly as one application leaves it. -/
theorem C7_recording_state_idempotent (sup : String → Bool) (c : ClientState)
    (v : Bool) :
    (handleRecordingState sup (handleRecordingState sup c v).1 v).1 =
      (handleRecordingState sup c v).1 := by
  obtain ⟨flag, ⟨ci, ir, hs, hr, mm⟩⟩ := c
  cases v <;> cases ir <;> cases hr <;>
    simp [handleRecordingState, startRecording, stopRecording]

/-- C8: invoking `startRecording` while a recording is already in progress
is a warning no-op — the state (including the index counter and the single
recorder) is unchanged, a warning is emitted, and no error is raised. -/
theorem C8_start_idempotent_while_capturing (sup : String → Bool)
    (s : RecorderState) (h : s.isRecording = true) :
    startRecording sup s = (s, [.warned]) := by
  simp [startRecording, h]

theorem C8_start_idempotent_while_capturing_witness :
    ({ initialRecorder with isRecording := true } : RecorderState).isRecording
        = true ∧
    startRecording (fun _ => true) { initialRecorder with isRecording := true }
      = ({ initialRecorder with isRecording := true }, [.warned]) :=
  ⟨rfl, C8_start_idempotent_while_capturing (fun _ => true) _ rfl⟩

/-- C9: when `MediaRecorder.isTypeSupported` rejects the preferred
WebM/VP9 type, `startRecording` selects the WebM/VP8 fallback and proceeds
to the recording state without emitting any error. -/
theorem C9_codec_fallback (sup : String → Bool) (s : RecorderState)
    (hrec : s.isRecording = false) (hvp9 : sup vp9Mime = false) :
    (startRecording sup s).1.mime = some vp8Mime ∧
    (startRecording sup s).1.isRecording = true ∧
    (startRecording sup s).2 = [] := by
  simp [startRecording, hrec, selectMimeType, hvp9]

theorem C9_codec_fallback_witness :
    initialRecorder.isRecording = false ∧ (fun _ => false) vp9Mime = false ∧
    ((startRecording (fun _ => false) initialRecorder).1.mime = some vp8Mime ∧
     (startRecording (fun _ => false) initialRecorder).1.isRecording = true ∧
     (startRecording (fun _ => false) initialRecorder).2 = []) :=
  ⟨rfl, rfl, C9_codec_fallback (fun _ => false) initialRecorder rfl rfl⟩

/-- C10: when the upload of a non-empty segment fails, the handler leaves
the whole state — in particular the `chunkIndex` counter — untouched and
invokes only the error callback, never the per-chunk success callback; the
next successfully uploaded segment therefore carries the very index the
failed one carried. -/
theorem C10_failed_upload_keeps_index (s : RecorderState) (size size' : Nat)
    (h : 0 < size) (h' : 0 < size') :
    dataAvailable s size false = (s, [.errored]) ∧
    (dataAvailable (dataAvailable s size false).1 size' true).2 =
      [.uploaded s.chunkIndex] := by
  constructor <;> simp [dataAvailable, h, h']

theorem C10_failed_upload_keeps_index_witness :
    0 < 7 ∧ 0 < 4 ∧
    (dataAvailable { initialRecorder with chunkIndex := 3 } 7 false =
        ({ initialRecorder with chunkIndex := 3 }, [.errored]) ∧
     (dataAvailable
        (dataAvailable { initialRecorder with chunkIndex := 3 } 7 false).1
        4 true).2 = [.uploaded 3]) :=
  ⟨by decide, by decide,
   C10_failed_upload_keeps_index { initialRecorder with chunkIndex := 3 } 7 4
     (by decide) (by decide)⟩

/-! ### Properties of the ingestion endpoint -/

theorem find?_map_update {α : Type} (p : α → Bool) (r r' : α)
    (hp : p r' = true) :
    ∀ l : List α, l.find? p = some r →
      (l.map (fun x => if p x then r' else x)).find? p = some r' := by
  intro l
  induction l with
  | nil => intro h; simp at h
  | cons a l ih =>
    intro h
    by_cases ha : p a = true
    · simp only [List.map_cons, ha, if_true]
      exact List.find?_cons_of_pos _ hp
    · rw [List.find?_cons_of_neg _ ha] at h
      simp only [List.map_cons, ha, if_false, Bool.false_eq_true]
      rw [List.find?_cons_of_neg _ ha]
      exact ih h

theorem recKey_self (sid pid name url : String) (len : Nat) (st : RecStatus) :
    recKey sid pid
      { studioId := sid, participantId := pid, participantName := name,
        fileUrl := url, size := len, status := st } = true := by
  simp [recKey]

theorem recKey_size_update (sid pid : String) (r : Recording) (len : Nat) :
    recKey sid pid { r with size := r.size + len } = recKey sid pid r := rfl

/-- The row an upsert yields is the row a subsequent lookup by the natural
key finds. -/
theorem find?_upsertRecording (rows : List Recording)
    (sid pid name url : String) (len : Nat) :
    (upsertRecording rows sid pid name url len).1.find? (recKey sid pid) =
      some (upsertRecording rows sid pid name url len).2 := by
  unfold upsertRecording
  cases h : rows.find? (recKey sid pid) with
  | some r =>
    simp only
    exact find?_map_update (recKey sid pid) r _
      (by rw [recKey_size_update]; exact List.find?_some h) rows h
  | none =>
    simp only
    rw [List.find?_append, h]
    simp [recKey_self]

theorem upsertRecording_snd_of_found (rows : List Recording)
    (sid pid name url : String) (len : Nat) (r : Recording)
    (h : rows.find? (recKey sid pid) = some r) :
    (upsertRecording rows sid pid name url len).2 =
      { r with size := r.size + len } := by
  simp [upsertRecording, h]

theorem upsertRecording_snd_of_fresh (rows : List Recording)
    (sid pid name url : String) (len : Nat)
    (h : rows.find? (recKey sid pid) = none) :
    (upsertRecording rows sid pid name url len).2 =
      { studioId := sid, participantId := pid, participantName := name,
        fileUrl := url, size := len, status := .uploading } := by
  simp [upsertRecording, h]

/-- Evaluation of the route on a request that passes every check. -/
theorem postUploadChunk_valid (st : ServerState) (req : UploadRequest)
    (bytes : List Nat) (sid pid : String) (idx : Int)
    (hauth : req.authenticated = true) (hc : req.chunk = some bytes)
    (hs : req.studioId = some sid) (hp : req.participantId = some pid)
    (hidx : parseIndexField req.chunkIndex = some idx)
    (hsne : sid ≠ "") (hpne : pid ≠ "") (hmem : sid ∈ st.studios) :
    postUploadChunk st req =
      ({ studios := st.studios,
         objects := putObject st.objects (chunkObjectName sid pid idx) bytes,
         recordings := (upsertRecording st.recordings sid pid
           (jsStrOr req.userName "Anonymous") (chunkObjectName sid pid idx)
           bytes.length).1 },
       .ok idx (chunkObjectName sid pid idx)
         (upsertRecording st.recordings sid pid (jsStrOr req.userName "Anonymous")
           (chunkObjectName sid pid idx) bytes.length).2.size) := by
  simp [postUploadChunk, hauth, hc, hs, hp, hidx, hsne, hpne, hmem]

/-- C2: an ingest request naming a studio id absent from the studio table —
but otherwise authenticated and well-formed, so that the studio check is
reached — is answered with the not-found failure and the server state is
returned unchanged: no object is stored and no `Recording` row is created
or updated. -/
theorem C2_unknown_studio_rejected_no_mutation (st : ServerState)
    (req : UploadRequest) (bytes : List Nat) (sid pid : String) (idx : Int)
    (hauth : req.authenticated = true) (hc : req.chunk = some bytes)
    (hs : req.studioId = some sid) (hp : req.participantId = some pid)
    (hidx : parseIndexField req.chunkIndex = some idx)
    (hsne : sid ≠ "") (hpne : pid ≠ "") (hmem : sid ∉ st.studios) :
    postUploadChunk st req = (st, .studioNotFound) := by
  simp [postUploadChunk, hauth, hc, hs, hp, hidx, hsne, hpne, hmem]

theorem C2_unknown_studio_rejected_no_mutation_witness :
    let st : ServerState :=
      { studios := ["studio1"], objects := [], recordings := [] }
    let req : UploadRequest :=
      { authenticated := true, userName := some "Alice",
        chunk := some [1, 2, 3], studioId := some "ghost",
        participantId := some "p1", chunkIndex := some "0" }
    req.authenticated = true ∧ parseIndexField req.chunkIndex = some 0 ∧
      "ghost" ∉ st.studios ∧ postUploadChunk st req = (st, .studioNotFound) :=
  ⟨rfl, by decide,
   by decide,
   C2_unknown_studio_rejected_no_mutation _ _ [1, 2, 3] "ghost" "p1" 0 rfl rfl
     rfl rfl (by decide) (by decide) (by decide) (by decide)⟩

/-- C3 as stated is false: the route's only index check is
`isNaN(parseInt(...))`, and `parseInt` parses a negative integer string, so
a request with `chunkIndex = "-5"` — whose index does not parse as a
non-negative integer — is accepted, the object is stored (under the
zero-padded name `chunk-000-5.webm`) and a ledger row is written. -/
theorem C3_counterexample_negative_index_accepted :
    postUploadChunk
      { studios := ["studio1"], objects := [], recordings := [] }
      { authenticated := true, userName := some "Alice",
        chunk := some [1, 2, 3], studioId := some "studio1",
        participantId := some "p1", chunkIndex := some "-5" } =
      ({ studios := ["studio1"],
         objects := [("studio1/p1/chunk-000-5.webm", [1, 2, 3])],
         recordings := [{ studioId := "studio1", participantId := "p1",
                          participantName := "Alice",
                          fileUrl := "studio1/p1/chunk-000-5.webm",
                          size := 3, status := .uploading }] },
       .ok (-5) "studio1/p1/chunk-000-5.webm" 3) := by
  decide

/-- C3 amended: the route rejects with the 400 missing-fields failure —
leaving the server state untouched — exactly when the chunk blob, studio id
or participant id is missing/empty or `parseInt` of the index field yields
`NaN`; an index string parsing to a negative integer, or one with integral
leading digits followed by junk (for example a decimal point), is accepted
with the parsed (possibly negative, possibly truncated) value. -/
theorem C3_amended_nan_index_rejected_no_mutation (st : ServerState)
    (req : UploadRequest) (hauth : req.authenticated = true)
    (hidx : parseIndexField req.chunkIndex = none) :
    postUploadChunk st req = (st, .missingFields) := by
  simp only [postUploadChunk, hauth, Bool.true_eq_false, if_false, hidx]
  cases req.chunk <;> cases req.studioId <;> cases req.participantId <;> rfl

theorem C3_amended_nan_index_rejected_no_mutation_witness :
    let st : ServerState :=
      { studios := ["studio1"], objects := [], recordings := [] }
    let req : UploadRequest :=
      { authenticated := true, userName := some "Alice",
        chunk := some [1, 2, 3], studioId := some "studio1",
        participantId := some "p1", chunkIndex := some "abc" }
    req.authenticated = true ∧ parseIndexField req.chunkIndex = none ∧
      postUploadChunk st req = (st, .missingFields) :=
  ⟨rfl, by decide,
   C3_amended_nan_index_rejected_no_mutation _ _ rfl (by decide)⟩

/-- C4: ingesting the same `(studioId, participantId, index)` with the same
payload of length `L` twice in a row — starting from a state with no ledger
row for the pair — leaves the ledger row at accumulated size `2 * L`, not
`L`: the route increments the size again instead of recognising the
re-ingested index. -/
theorem C4_reingest_double_counts (st : ServerState) (req : UploadRequest)
    (bytes : List Nat) (sid pid : String) (idx : Int)
    (hauth : req.authenticated = true) (hc : req.chunk = some bytes)
    (hs : req.studioId = some sid) (hp : req.participantId = some pid)
    (hidx : parseIndexField req.chunkIndex = some idx)
    (hsne : sid ≠ "") (hpne : pid ≠ "") (hmem : sid ∈ st.studios)
    (hfresh : st.recordings.find? (recKey sid pid) = none) :
    ((postUploadChunk (postUploadChunk st req).1 req).1.recordings.find?
        (recKey sid pid)).map Recording.size = some (2 * bytes.length) ∧
    (postUploadChunk (postUploadChunk st req).1 req).2 =
      .ok idx (chunkObjectName sid pid idx) (2 * bytes.length) := by
  have h1 := postUploadChunk_valid st req bytes sid pid idx hauth hc hs hp hidx
    hsne hpne hmem
  set name := jsStrOr req.userName "Anonymous" with hname
  set url := chunkObjectName sid pid idx with hurl
  have hrow1 := find?_upsertRecording st.recordings sid pid name url bytes.length
  have hsnd1 := upsertRecording_snd_of_fresh st.recordings sid pid name url
    bytes.length hfresh
  have h2 := postUploadChunk_valid (postUploadChunk st req).1 req bytes sid pid
    idx hauth hc hs hp hidx hsne hpne (by rw [h1]; exact hmem)
  have hrow2 := find?_upsertRecording (postUploadChunk st req).1.recordings sid
    pid name url bytes.length
  have hsnd2 := upsertRecording_snd_of_found
    (postUploadChunk st req).1.recordings sid pid name url bytes.length _
    (by rw [h1]; exact hrow1)
  rw [hsnd1] at hsnd2
  constructor
  · rw [h2]
    simp only [hrow2, hsnd2, hsnd1, Option.map_some]
    simp
    omega
  · rw [h2]
    simp only [hsnd2, hsnd1]
    simp
    omega

theorem C4_reingest_double_counts_witness :
    let st : ServerState :=
      { studios := ["studio1"], objects := [], recordings := [] }
    let req : UploadRequest :=
      { authenticated := true, userName := some "Alice",
        chunk := some [1, 2, 3], studioId := some "studio1",
        participantId := some "p1", chunkIndex := some "0" }
    req.authenticated = true ∧ parseIndexField req.chunkIndex = some 0 ∧
      st.recordings.find? (recKey "studio1" "p1") = none ∧
      (((postUploadChunk (postUploadChunk st req).1 req).1.recordings.find?
          (recKey "studio1" "p1")).map Recording.size = some 6 ∧
       (postUploadChunk (postUploadChunk st req).1 req).2 =
         .ok 0 (chunkObjectName "studio1" "p1" 0) 6) :=
  ⟨rfl, by decide, rfl,
   C4_reingest_double_counts _ _ [1, 2, 3] "studio1" "p1" 0 rfl rfl rfl rfl
     (by decide) (by decide) (by decide) (by decide) rfl⟩

/-- C5: starting from a state with no ledger row for an existing studio and
a participant, sequentially ingesting three valid chunks of byte lengths
1000, 2048 and 500 first creates the row with status `uploading` and size
1000, then increments it to 3048 and finally to 3548, never changing the
status. -/
theorem C5_sequential_ingest_sizes (st : ServerState)
    (req₁ req₂ req₃ : UploadRequest) (b₁ b₂ b₃ : List Nat)
    (sid pid : String) (i₁ i₂ i₃ : Int)
    (hauth₁ : req₁.authenticated = true) (hc₁ : req₁.chunk = some b₁)
    (hs₁ : req₁.studioId = some sid) (hp₁ : req₁.participantId = some pid)
    (hidx₁ : parseIndexField req₁.chunkIndex = some i₁)
    (hauth₂ : req₂.authenticated = true) (hc₂ : req₂.chunk = some b₂)
    (hs₂ : req₂.studioId = some sid) (hp₂ : req₂.participantId = some pid)
    (hidx₂ : parseIndexField req₂.chunkIndex = some i₂)
    (hauth₃ : req₃.authenticated = true) (hc₃ : req₃.chunk = some b₃)
    (hs₃ : req₃.studioId = some sid) (hp₃ : req₃.participantId = some pid)
    (hidx₃ : parseIndexField req₃.chunkIndex = some i₃)
    (hsne : sid ≠ "") (hpne : pid ≠ "") (hmem : sid ∈ st.studios)
    (hfresh : st.recordings.find? (recKey sid pid) = none)
    (hl₁ : b₁.length = 1000) (hl₂ : b₂.length = 2048)
    (hl₃ : b₃.length = 500) :
    ((postUploadChunk st req₁).1.recordings.find? (recKey sid pid)).map
        (fun r => (r.size, r.status)) = some (1000, .uploading) ∧
    ((postUploadChunk (postUploadChunk st req₁).1 req₂).1.recordings.find?
        (recKey sid pid)).map
        (fun r => (r.size, r.status)) = some (3048, .uploading) ∧
    ((postUploadChunk (postUploadChunk (postUploadChunk st req₁).1 req₂).1
        req₃).1.recordings.find? (recKey sid pid)).map
        (fun r => (r.size, r.status)) = some (3548, .uploading) := by
  have h1 := postUploadChunk_valid st req₁ b₁ sid pid i₁ hauth₁ hc₁ hs₁ hp₁
    hidx₁ hsne hpne hmem
  have hrow1 := find?_upsertRecording st.recordings sid pid
    (jsStrOr req₁.userName "Anonymous") (chunkObjectName sid pid i₁) b₁.length
  have hsnd1 := upsertRecording_snd_of_fresh st.recordings sid pid
    (jsStrOr req₁.userName "Anonymous") (chunkObjectName sid pid i₁) b₁.length
    hfresh
  have h2 := postUploadChunk_valid (postUploadChunk st req₁).1 req₂ b₂ sid pid
    i₂ hauth₂ hc₂ hs₂ hp₂ hidx₂ hsne hpne (by rw [h1]; exact hmem)
  have hrow2 := find?_upsertRecording (postUploadChunk st req₁).1.recordings
    sid pid (jsStrOr req₂.userName "Anonymous") (chunkObjectName sid pid i₂)
    b₂.length
  have hsnd2 := upsertRecording_snd_of_found
    (postUploadChunk st req₁).1.recordings sid pid
    (jsStrOr req₂.userName "Anonymous") (chunkObjectName sid pid i₂) b₂.length
    _ (by rw [h1]; exact hrow1)
  rw [hsnd1] at hsnd2
  have h3 := postUploadChunk_valid
    (postUploadChunk (postUploadChunk st req₁).1 req₂).1 req₃ b₃ sid pid i₃
    hauth₃ hc₃ hs₃ hp₃ hidx₃ hsne hpne (by rw [h2, h1]; exact hmem)
  have hrow3 := find?_upsertRecording
    (postUploadChunk (postUploadChunk st req₁).1 req₂).1.recordings sid pid
    (jsStrOr req₃.userName "Anonymous") (chunkObjectName sid pid i₃) b₃.length
  have hsnd3 := upsertRecording_snd_of_found
    (postUploadChunk (postUploadChunk st req₁).1 req₂).1.recordings sid pid
    (jsStrOr req₃.userName "Anonymous") (chunkObjectName sid pid i₃) b₃.length
    _ (by rw [h2]; exact hrow2)
  rw [hsnd2] at hsnd3
  refine ⟨?_, ?_, ?_⟩
  · rw [h1]
    simp only [hrow1, hsnd1, Option.map_some]
    simp [hl₁]
  · rw [h2]
    simp only [hrow2, hsnd2, Option.map_some]
    simp [hl₁, hl₂]
  · rw [h3]
    simp only [hrow3, hsnd3, Option.map_some]
    simp [hl₁, hl₂, hl₃]

/-- Server state the C5 witness starts from: one studio, empty store, empty
ledger. -/
def wServer : ServerState := { studios := ["studio1"], objects := [], recordings := [] }

/-- Request shape the C5 witness uses. -/
def wReq (ix : String) (bs : List Nat) : UploadRequest :=
  { authenticated := true, userName := some "Alice", chunk := some bs,
    studioId := some "studio1", participantId := some "p1",
    chunkIndex := some ix }

/-- First payload of the C5 witness, 1000 bytes. -/
def wB1 : List Nat := List.replicate 1000 7

/-- Second payload of the C5 witness, 2048 bytes. -/
def wB2 : List Nat := List.replicate 2048 7

/-- Third payload of the C5 witness, 500 bytes. -/
def wB3 : List Nat := List.replicate 500 7

theorem C5_sequential_ingest_sizes_witness :
    wB1.length = 1000 ∧ wB2.length = 2048 ∧ wB3.length = 500 ∧
    wServer.recordings.find? (recKey "studio1" "p1") = none ∧
    ((postUploadChunk (postUploadChunk (postUploadChunk wServer
        (wReq "0" wB1)).1 (wReq "1" wB2)).1 (wReq "2" wB3)).1.recordings.find?
        (recKey "studio1" "p1")).map
        (fun r => (r.size, r.status)) = some (3548, .uploading) :=
  ⟨List.length_replicate 1000 7, List.length_replicate 2048 7,
   List.length_replicate 500 7, rfl,
   (C5_sequential_ingest_sizes wServer (wReq "0" wB1) (wReq "1" wB2)
     (wReq "2" wB3) wB1 wB2 wB3 "studio1" "p1" 0 1 2 rfl rfl rfl
     rfl (by decide) rfl rfl rfl rfl (by decide) rfl rfl rfl rfl (by decide)
     (by decide) (by decide) (by decide) rfl (List.length_replicate 1000 7)
     (List.length_replicate 2048 7) (List.length_replicate 500 7)).2.2⟩

/-! ### Lexicographic order of object keys

`uploadChunk` zero-pads the printed index to width 5, so under a fixed
`{studioId}/{participantId}/` prefix a lexicographic listing reproduces
numeric index order for indices up to 99999.  The lemmas below characterise
the width-`k` zero-padded decimal representation and show it is strictly
monotone for the lexicographic order on character lists. -/

/-- Width-`k` zero-padded decimal representation (the composition the
object-name template applies to a non-negative index). -/
def padNat (k n : Nat) : List Char := padStartZero (natToChars n) k

theorem natToChars_length_pos (n : Nat) : 1 ≤ (natToChars n).length := by
  rw [natToChars_eq]; split <;> simp

theorem natToChars_length_le :
    ∀ k n, n < 10 ^ (k + 1) → (natToChars n).length ≤ k + 1 := by
  intro k
  induction k with
  | zero =>
    intro n h
    have h10 : n < 10 := by simpa using h
    rw [natToChars_eq]
    simp [h10]
  | succ k ih =>
    intro n h
    rw [natToChars_eq]
    by_cases h10 : n < 10
    · simp [h10]
    · simp only [h10, if_false, List.length_append, List.length_cons,
        List.length_nil]
      have hd : n / 10 < 10 ^ (k + 1) := by
        rw [Nat.div_lt_iff_lt_mul (by norm_num)]
        calc n < 10 ^ (k + 2) := h
          _ = 10 ^ (k + 1) * 10 := by ring
      have := ih (n / 10) hd
      omega

theorem natToChars_length_ge :
    ∀ k n, 10 ^ k ≤ n → k + 1 ≤ (natToChars n).length := by
  intro k
  induction k with
  | zero => intro n _; exact natToChars_length_pos n
  | succ k ih =>
    intro n h
    have hpow : (10 : Nat) ≤ 10 ^ (k + 1) := by
      calc (10 : Nat) = 10 ^ 1 := by norm_num
        _ ≤ 10 ^ (k + 1) := Nat.pow_le_pow_right (by norm_num) (by omega)
    have h10 : ¬ n < 10 := by omega
    rw [natToChars_eq]
    simp only [h10, if_false, List.length_append, List.length_cons,
      List.length_nil]
    have hd : 10 ^ k ≤ n / 10 := by
      rw [Nat.le_div_iff_mul_le (by norm_num)]
      calc 10 ^ k * 10 = 10 ^ (k + 1) := by ring
        _ ≤ n := h
    have := ih (n / 10) hd
    omega

theorem padNat_length (k n : Nat) (h : n < 10 ^ (k + 1)) :
    (padNat (k + 1) n).length = k + 1 := by
  have hle := natToChars_length_le k n h
  simp only [padNat, padStartZero, List.length_append, List.length_replicate]
  omega

theorem digitChar_zero : digitChar 0 = '0' := by decide

theorem padNat_one (n : Nat) (h : n < 10) : padNat 1 n = [digitChar n] := by
  have h1 : natToChars n = [digitChar n] := by rw [natToChars_eq]; simp [h]
  simp [padNat, padStartZero, h1]

theorem padNat_succ (k : Nat) (hk : 1 ≤ k) (r : Nat) :
    padNat (k + 1) r = padNat k (r / 10) ++ [digitChar (r % 10)] := by
  obtain ⟨k', rfl⟩ : ∃ k', k = k' + 1 := ⟨k - 1, by omega⟩
  by_cases hr : r < 10
  · have hdiv : r / 10 = 0 := Nat.div_eq_of_lt hr
    have hmod : r % 10 = r := Nat.mod_eq_of_lt hr
    have h1 : natToChars r = [digitChar r] := by rw [natToChars_eq]; simp [hr]
    have h0 : natToChars 0 = [digitChar 0] := by rw [natToChars_eq]; simp
    rw [hdiv, hmod]
    simp only [padNat, padStartZero, h1, h0, digitChar_zero, List.length_cons,
      List.length_nil]
    rw [show k' + 1 + 1 - (0 + 1) = k' + 1 by omega,
      show k' + 1 - (0 + 1) = k' by omega, List.replicate_succ' k' '0',
      List.append_assoc]
  · have h1 : natToChars r = natToChars (r / 10) ++ [digitChar (r % 10)] := by
      rw [natToChars_eq]; simp [hr]
    simp only [padNat, padStartZero, h1, List.length_append, List.length_cons,
      List.length_nil]
    rw [List.append_assoc]
    congr 2
    omega

theorem padNat_decompose :
    ∀ k n, n < 10 ^ (k + 2) →
      padNat (k + 2) n =
        digitChar (n / 10 ^ (k + 1)) :: padNat (k + 1) (n % 10 ^ (k + 1)) := by
  intro k
  induction k with
  | zero =>
    intro n h
    have h100 : n < 100 := by simpa using h
    rw [padNat_succ 1 (by omega) n]
    have hdiv : n / 10 < 10 := by omega
    have hmod : n % 10 < 10 := by omega
    rw [padNat_one _ hdiv]
    have e1 : n / 10 ^ (0 + 1) = n / 10 := by norm_num
    have e2 : n % 10 ^ (0 + 1) = n % 10 := by norm_num
    have e3 : padNat (0 + 1) (n % 10) = [digitChar (n % 10)] :=
      padNat_one _ hmod
    rw [e1, e2, e3]
    rfl
  | succ k ih =>
    intro n h
    rw [padNat_succ (k + 2) (by omega) n]
    rw [ih (n / 10) (by
      rw [Nat.div_lt_iff_lt_mul (by norm_num)]
      calc n < 10 ^ (k + 3) := h
        _ = 10 ^ (k + 2) * 10 := by ring)]
    rw [padNat_succ (k + 1) (by omega) (n % 10 ^ (k + 2))]
    have e1 : n / 10 / 10 ^ (k + 1) = n / 10 ^ (k + 2) := by
      rw [Nat.div_div_eq_div_mul]; congr 1; ring
    have e2 : n / 10 % 10 ^ (k + 1) = n % 10 ^ (k + 2) / 10 := by
      rw [show (10 : Nat) ^ (k + 2) = 10 * 10 ^ (k + 1) by ring,
        Nat.mod_mul_right_div_self]
    have e3 : n % 10 = n % 10 ^ (k + 2) % 10 := by
      rw [Nat.mod_mod_of_dvd n (dvd_pow_self 10 (by omega))]
    rw [e1, e2, e3]
    simp

theorem digitChar_lt :
    ∀ m < 10, ∀ n < 10, m < n → digitChar m < digitChar n := by decide

theorem lex_append_of_length_eq :
    ∀ {l₁ l₂ : List Char}, List.Lex (· < ·) l₁ l₂ → l₁.length = l₂.length →
      ∀ (t₁ t₂ : List Char), List.Lex (· < ·) (l₁ ++ t₁) (l₂ ++ t₂) := by
  intro l₁ l₂ h
  induction h with
  | nil => intro hlen; simp at hlen
  | @cons a s₁ s₂ h ih =>
    intro hlen t₁ t₂
    exact List.Lex.cons (ih (by simpa using hlen) t₁ t₂)
  | @rel a₁ s₁ a₂ s₂ h =>
    intro _ t₁ t₂
    exact List.Lex.rel h

/-- Strict monotonicity of the width-`k` zero-padded decimal representation
for the lexicographic order. -/
theorem padNat_lex_mono :
    ∀ k m n, m < n → n < 10 ^ (k + 1) →
      List.Lex (· < ·) (padNat (k + 1) m) (padNat (k + 1) n) := by
  intro k
  induction k with
  | zero =>
    intro m n hmn hn
    have hn10 : n < 10 := by simpa using hn
    rw [padNat_one m (by omega), padNat_one n hn10]
    exact List.Lex.rel (digitChar_lt m (by omega) n hn10 hmn)
  | succ k ih =>
    intro m n hmn hn
    have hm : m < 10 ^ (k + 2) := lt_trans hmn hn
    rw [padNat_decompose k m hm, padNat_decompose k n hn]
    have hdle : m / 10 ^ (k + 1) ≤ n / 10 ^ (k + 1) :=
      Nat.div_le_div_right (le_of_lt hmn)
    rcases lt_or_eq_of_le hdle with hlt | heq
    · refine List.Lex.rel (digitChar_lt _ ?_ _ ?_ hlt)
      · exact (Nat.div_lt_iff_lt_mul (by positivity)).mpr
          (by calc m < 10 ^ (k + 2) := hm
                _ = 10 * 10 ^ (k + 1) := by ring)
      · exact (Nat.div_lt_iff_lt_mul (by positivity)).mpr
          (by calc n < 10 ^ (k + 2) := hn
                _ = 10 * 10 ^ (k + 1) := by ring)
    · rw [heq]
      apply List.Lex.cons
      apply ih
      · have hm' := Nat.div_add_mod m (10 ^ (k + 1))
        have hn' := Nat.div_add_mod n (10 ^ (k + 1))
        have hq : 10 ^ (k + 1) * (m / 10 ^ (k + 1)) =
            10 ^ (k + 1) * (n / 10 ^ (k + 1)) := by rw [heq]
        omega
      · exact Nat.mod_lt n (by positivity)

theorem intToChars_ofNat (n : Nat) : intToChars (n : Int) = natToChars n := by
  simp [intToChars]

theorem chunkObjectName_toList (sid pid : String) (i : Int) :
    (chunkObjectName sid pid i).toList =
      sid.toList ++ ("/".toList ++ (pid.toList ++ ("/chunk-".toList ++
        (padStartZero (intToChars i) 5 ++ ".webm".toList)))) := by
  have hAs : ∀ l : List Char, l.asString.data = l := fun l =>
    List.toList_asString l
  simp [chunkObjectName, String.toList, List.append_assoc, hAs]

/-- C6: the object key `uploadChunk` assigns is the
`{studioId}/{participantId}/chunk-{index zero-padded to width 5}.webm`
template, and for indices `i < j ≤ 99999` under the same studio/participant
prefix the key for `i` is lexicographically smaller than the key for `j` —
a sorted prefix listing reproduces numeric index order. -/
theorem C6_key_order_matches_index_order (sid pid : String) (i j : Nat)
    (hij : i < j) (hj : j ≤ 99999) :
    chunkObjectName sid pid (i : Int) < chunkObjectName sid pid (j : Int) := by
  have hj5 : j < 10 ^ (4 + 1) := by norm_num; omega
  have hi5 : i < 10 ^ (4 + 1) := by norm_num; omega
  rw [String.lt_iff_toList_lt, chunkObjectName_toList, chunkObjectName_toList,
    intToChars_ofNat, intToChars_ofNat]
  exact List.Lex.append_left _ (List.Lex.append_left _ (List.Lex.append_left _
    (List.Lex.append_left _
      (lex_append_of_length_eq (padNat_lex_mono 4 i j hij hj5)
        (by rw [padNat_length 4 i hi5, padNat_length 4 j hj5]) _ _) _) _) _) _

theorem C6_key_order_matches_index_order_witness :
    0 < 1 ∧ 1 ≤ 99999 ∧
    chunkObjectName "s" "p" ((0 : Nat) : Int) <
      chunkObjectName "s" "p" ((1 : Nat) : Int) :=
  ⟨by decide, by decide,
   C6_key_order_matches_index_order "s" "p" 0 1 (by decide) (by decide)⟩

end Streamside
